import Mathlib

/-!
Verification of the generation-service module `services/geminiService.ts`.

JS strings are modelled as `List Char`. The built-in `JSON.parse` is modelled
by a recursive-descent parser over the JSON grammar (objects, arrays, strings
with escapes, numbers kept as their lexeme, literals), returning an exception
value (`Except.error`) exactly where `JSON.parse` throws a `SyntaxError`.
-/

namespace GeminiService

/-- Result values of `JSON.parse`: numbers are kept as their lexeme since no
claim depends on numeric value, only on parse success and equality. -/
inductive Json where
  | null : Json
  | bool (b : Bool) : Json
  | num (lexeme : List Char) : Json
  | str (s : List Char) : Json
  | arr (elems : List Json) : Json
  | obj (members : List (List Char × Json)) : Json

/-- The backtick character, written via its code point. -/
def backtick : Char := Char.ofNat 96

/-- JSON whitespace accepted by `JSON.parse` between tokens. -/
def isWs (c : Char) : Bool := c = ' ' || c = '\t' || c = '\n' || c = '\r'

/-- Drop leading JSON whitespace. -/
def skipWs : List Char → List Char
  | [] => []
  | c :: cs => if isWs c then skipWs cs else c :: cs

/-- Longest leading run of decimal digits. -/
def spanDigits : List Char → List Char × List Char
  | [] => ([], [])
  | c :: cs =>
    if c.isDigit then (c :: (spanDigits cs).1, (spanDigits cs).2)
    else ([], c :: cs)

/-- Value of one hexadecimal digit, as used in `\u` escapes. -/
def hexVal (c : Char) : Option Nat :=
  if '0' ≤ c ∧ c ≤ '9' then some (c.toNat - 48)
  else if 'a' ≤ c ∧ c ≤ 'f' then some (c.toNat - 87)
  else if 'A' ≤ c ∧ c ≤ 'F' then some (c.toNat - 55)
  else none

/-- Decode one JSON string escape (the characters after the backslash). -/
def escDecode : List Char → Option (Char × List Char)
  | [] => none
  | e :: cs =>
    if e = '"' then some ('"', cs)
    else if e = '\\' then some ('\\', cs)
    else if e = '/' then some ('/', cs)
    else if e = 'b' then some (Char.ofNat 8, cs)
    else if e = 'f' then some (Char.ofNat 12, cs)
    else if e = 'n' then some ('\n', cs)
    else if e = 'r' then some ('\r', cs)
    else if e = 't' then some ('\t', cs)
    else if e = 'u' then
      match cs with
      | h1 :: h2 :: h3 :: h4 :: cs2 =>
        match hexVal h1, hexVal h2, hexVal h3, hexVal h4 with
        | some a, some b, some c, some d =>
          some (Char.ofNat (((a * 16 + b) * 16 + c) * 16 + d), cs2)
        | _, _, _, _ => none
      | _ => none
    else none

/-- Body of a JSON string literal, after the opening quote: decoded content
plus the remaining input after the closing quote. Control characters below
0x20 and invalid escapes are rejected, as in `JSON.parse`. -/
def parseStringBody : Nat → List Char → Option (List Char × List Char)
  | 0, _ => none
  | _ + 1, [] => none
  | fuel + 1, c :: cs =>
    if c = '"' then some ([], cs)
    else if c = '\\' then
      match escDecode cs with
      | some (ch, cs2) =>
        match parseStringBody fuel cs2 with
        | some (out, rest) => some (ch :: out, rest)
        | none => none
      | none => none
    else if c.toNat < 32 then none
    else
      match parseStringBody fuel cs with
      | some (out, rest) => some (c :: out, rest)
      | none => none

/-- Integer part of a JSON number: `0`, or a nonzero digit followed by digits. -/
def parseIntPart : List Char → Option (List Char × List Char)
  | [] => none
  | c :: cs =>
    if c = '0' then some ([c], cs)
    else if c.isDigit then some (c :: (spanDigits cs).1, (spanDigits cs).2)
    else none

/-- Optional fraction part of a JSON number (`.` must be followed by digits). -/
def parseFracPart : List Char → Option (List Char × List Char)
  | c :: cs =>
    if c = '.' then
      match spanDigits cs with
      | ([], _) => none
      | (d :: ds, r) => some (c :: d :: ds, r)
    else some ([], c :: cs)
  | [] => some ([], [])

/-- Optional exponent part of a JSON number (`e`/`E`, optional sign, digits). -/
def parseExpPart : List Char → Option (List Char × List Char)
  | c :: cs =>
    if c = 'e' ∨ c = 'E' then
      match cs with
      | s :: r =>
        if s = '+' ∨ s = '-' then
          match spanDigits r with
          | ([], _) => none
          | (d :: ds, rr) => some (c :: s :: d :: ds, rr)
        else
          match spanDigits (s :: r) with
          | ([], _) => none
          | (d :: ds, rr) => some (c :: d :: ds, rr)
      | [] => none
    else some ([], c :: cs)
  | [] => some ([], [])

/-- Integer, fraction and exponent parts of a JSON number after the sign. -/
def parseNumBody (cs : List Char) : Option (List Char × List Char) :=
  match parseIntPart cs with
  | none => none
  | some (ip, r1) =>
    match parseFracPart r1 with
    | none => none
    | some (fp, r2) =>
      match parseExpPart r2 with
      | none => none
      | some (ep, r3) => some (ip ++ fp ++ ep, r3)

/-- A JSON number lexeme: optional minus, integer part, optional fraction and
exponent. The lexeme is returned verbatim together with the remaining input. -/
def parseNumber : List Char → Option (List Char × List Char)
  | [] => none
  | c :: r =>
    if c = '-' then
      match parseNumBody r with
      | some (lex, rest) => some (c :: lex, rest)
      | none => none
    else parseNumBody (c :: r)

/-- Parsing mode: a single value, the items of an array after `[`, or the
members of an object after `{` (non-empty in both composite cases). -/
inductive PM where
  | value : PM
  | items : PM
  | members : PM

/-- Parsing result, tagged by mode. -/
inductive PR where
  | v (j : Json) : PR
  | items (js : List Json) : PR
  | members (ms : List (List Char × Json)) : PR

/-- Fuel-indexed recursive-descent parser for the JSON grammar, following the
behaviour of `JSON.parse` (which value texts it accepts and rejects). -/
def parseP : Nat → PM → List Char → Option (PR × List Char)
  | 0, _, _ => none
  | fuel + 1, PM.value, cs =>
    match skipWs cs with
    | [] => none
    | c :: cs1 =>
      if c = '{' then
        match skipWs cs1 with
        | [] => none
        | d :: cs2 =>
          if d = '}' then some (PR.v (Json.obj []), cs2)
          else
            match parseP fuel PM.members cs1 with
            | some (PR.members ms, rest) => some (PR.v (Json.obj ms), rest)
            | _ => none
      else if c = '[' then
        match skipWs cs1 with
        | [] => none
        | d :: cs2 =>
          if d = ']' then some (PR.v (Json.arr []), cs2)
          else
            match parseP fuel PM.items cs1 with
            | some (PR.items js, rest) => some (PR.v (Json.arr js), rest)
            | _ => none
      else if c = '"' then
        match parseStringBody (cs1.length + 1) cs1 with
        | some (out, rest) => some (PR.v (Json.str out), rest)
        | none => none
      else if c = 't' then
        match cs1 with
        | c1 :: c2 :: c3 :: rest =>
          if c1 = 'r' ∧ c2 = 'u' ∧ c3 = 'e' then some (PR.v (Json.bool true), rest)
          else none
        | _ => none
      else if c = 'f' then
        match cs1 with
        | c1 :: c2 :: c3 :: c4 :: rest =>
          if c1 = 'a' ∧ c2 = 'l' ∧ c3 = 's' ∧ c4 = 'e' then some (PR.v (Json.bool false), rest)
          else none
        | _ => none
      else if c = 'n' then
        match cs1 with
        | c1 :: c2 :: c3 :: rest =>
          if c1 = 'u' ∧ c2 = 'l' ∧ c3 = 'l' then some (PR.v Json.null, rest)
          else none
        | _ => none
      else if c = '-' ∨ c.isDigit then
        match parseNumber (c :: cs1) with
        | some (lex, rest) => some (PR.v (Json.num lex), rest)
        | none => none
      else none
  | fuel + 1, PM.items, cs =>
    match parseP fuel PM.value cs with
    | some (PR.v v, r1) =>
      (match skipWs r1 with
       | [] => none
       | d :: r2 =>
         if d = ',' then
           match parseP fuel PM.items r2 with
           | some (PR.items js, rest) => some (PR.items (v :: js), rest)
           | _ => none
         else if d = ']' then some (PR.items [v], r2)
         else none)
    | _ => none
  | fuel + 1, PM.members, cs =>
    match skipWs cs with
    | [] => none
    | d :: cs1 =>
      if d = '"' then
        match parseStringBody (cs1.length + 1) cs1 with
        | some (key, r1) =>
          (match skipWs r1 with
           | [] => none
           | e :: r2 =>
             if e = ':' then
               match parseP fuel PM.value r2 with
               | some (PR.v v, r3) =>
                 (match skipWs r3 with
                  | [] => none
                  | f :: r4 =>
                    if f = ',' then
                      match parseP fuel PM.members r4 with
                      | some (PR.members ms, rest) => some (PR.members ((key, v) :: ms), rest)
                      | _ => none
                    else if f = '}' then some (PR.members [(key, v)], r4)
                    else none)
               | _ => none
             else none)
        | none => none
      else none

/-- A message standing for the `SyntaxError` thrown on an unparsable value. -/
def errUnexpectedToken : List Char := ("Unexpected token in JSON").data

/-- A message standing for the `SyntaxError` thrown on trailing content. -/
def errTrailing : List Char := ("Unexpected non-whitespace character after JSON").data

/-- Model of `JSON.parse`: parse one value, then require only whitespace to
remain. `Except.error` marks the `SyntaxError` throw. -/
def jsonParseExc (s : List Char) : Except (List Char) Json :=
  match parseP (s.length + 1) PM.value s with
  | some (PR.v v, rest) =>
    if skipWs rest = [] then Except.ok v else Except.error errTrailing
  | _ => Except.error errUnexpectedToken

/-- The consumed part of a successful parse ends in a character other than a
backtick: `cs` is `pre ++ c :: rest` with `c ≠ '\x60'`. -/
def PEnd (cs rest : List Char) : Prop :=
  ∃ pre c, cs = pre ++ c :: rest ∧ c ≠ backtick

/-- What a successful parse in each mode says about the consumed input: in
value mode it ends in a non-backtick character, in items mode in `]`, in
members mode in `\x7d`. -/
def ModeEnd : PM → List Char → List Char → Prop
  | PM.value, cs, rest => PEnd cs rest
  | PM.items, cs, rest => ∃ pre, cs = pre ++ ']' :: rest
  | PM.members, cs, rest => ∃ pre, cs = pre ++ '}' :: rest

/-! ## The decoder `safeJsonParse`

Embeds, from the source:
`const cleanedString = jsonString.replace(/^```json\n/, '').replace(/\n```$/, '');`
`return JSON.parse(cleanedString)` inside `try`, with `catch` returning `null`.
-/

/-- The leading fenced-code marker matched by the regex `^```json\n`. -/
def markerLead : List Char := ("```json\n").data

/-- The trailing fenced-code marker matched by the regex `\n```$`. -/
def markerTrail : List Char := ("\n```").data

/-- Effect of `.replace(/^```json\n/, '')`: remove the marker if the string
starts with it, otherwise leave the string unchanged. -/
def stripLead (s : List Char) : List Char :=
  if markerLead.isPrefixOf s then s.drop markerLead.length else s

/-- Effect of `.replace(/\n```$/, '')`: remove the marker if the string ends
with it, otherwise leave the string unchanged. -/
def stripTrail (s : List Char) : List Char :=
  if markerTrail.isSuffixOf s then s.take (s.length - markerTrail.length) else s

/-- The `cleanedString` local of `safeJsonParse`: both replacements in order. -/
def cleanedString (s : List Char) : List Char := stripTrail (stripLead s)

/-- The decoder `safeJsonParse`: strip markers, `JSON.parse`, and map the
thrown `SyntaxError` (the `catch` branch) to `null`. Total by construction:
its codomain `Option Json` has no exception channel. -/
def safeJsonParse (s : List Char) : Option Json :=
  match jsonParseExc (cleanedString s) with
  | Except.ok v => some v
  | Except.error _ => none

/-- The call `safeJsonParse(response.text)` where `response.text` may be
`undefined`: `undefined.replace` throws a `TypeError` inside the `try`, which
the `catch` turns into `null` as well. -/
def safeJsonParseOpt : Option (List Char) → Option Json
  | none => none
  | some s => safeJsonParse s

/-! ## Multimodal response segments and the extraction loop in `editImage` -/

/-- An inline-binary payload: base64 data plus mime type. -/
structure InlineData where
  data : List Char
  mimeType : List Char
deriving DecidableEq

/-- One response segment (a `Part` of the SDK response): text and/or
inline-binary, each possibly absent. -/
structure Part where
  text : Option (List Char)
  inlineData : Option InlineData
deriving DecidableEq

/-- The loop in `editImage`:
`for (const part of parts) { if (part.inlineData) return part.inlineData.data; } return null;` -/
def firstImage : List Part → Option (List Char)
  | [] => none
  | p :: ps =>
    match p.inlineData with
    | some d => some d.data
    | none => firstImage ps

/-- Modelled from the spec: the contract
`firstImage(segments) -> (bytes, mimeType) | null`, returning both the byte
payload and the mime type of the first inline-binary segment. Stated only to
be compared with the code's `firstImage` above. -/
def firstImageSpec : List Part → Option (List Char × List Char)
  | [] => none
  | p :: ps =>
    match p.inlineData with
    | some d => some (d.data, d.mimeType)
    | none => firstImageSpec ps

/-- The `content` of a response candidate (`parts` may be absent). -/
structure Content where
  parts : Option (List Part)
deriving DecidableEq

/-- One response candidate (`content` may be absent). -/
structure Candidate where
  content : Option Content
deriving DecidableEq

/-- A response from `generateContent` / `sendMessage`: the `text` accessor
(`string | undefined`) and the optional `candidates` array. -/
structure GenResponse where
  text : Option (List Char)
  candidates : Option (List Candidate)
deriving DecidableEq

/-- The unguarded access `response.candidates[0].content.parts` followed by
the extraction loop, as written in `editImage`. Reading a property of a
missing value throws a `TypeError`, modelled as `Except.error`. -/
def extractFirstImage (r : GenResponse) : Except (List Char) (Option (List Char)) :=
  match r.candidates with
  | none => Except.error (("TypeError: candidates is undefined").data)
  | some [] => Except.error (("TypeError: candidates[0] is undefined").data)
  | some (c :: _) =>
    match c.content with
    | none => Except.error (("TypeError: content is undefined").data)
    | some ct =>
      match ct.parts with
      | none => Except.error (("TypeError: parts is not iterable").data)
      | some ps => Except.ok (firstImage ps)

/-! ## Requests and the generation operations -/

/-- The declared output shape (`responseSchema`) tree used at the call sites:
`Type.STRING` with optional enum and description, `Type.BOOLEAN`,
`Type.OBJECT` with properties and required names, `Type.ARRAY` with items. -/
inductive Schema where
  | string (enum : Option (List (List Char))) (description : Option (List Char)) : Schema
  | boolean : Schema
  | object (properties : List (List Char × Schema)) (required : List (List Char)) : Schema
  | array (items : Schema) : Schema

/-- Response modalities used by `editImage` (`Modality.IMAGE`). -/
inductive Modality where
  | IMAGE : Modality
deriving DecidableEq

/-- The `config` object of a `generateContent` request. -/
structure GenConfig where
  responseMimeType : Option (List Char)
  responseSchema : Option Schema
  responseModalities : Option (List Modality)

/-- The `contents` of a request: a plain string or a parts list. -/
inductive Contents where
  | text (s : List Char) : Contents
  | parts (ps : List Part) : Contents

/-- One outbound `generateContent` request. -/
structure GenRequest where
  model : List Char
  contents : Contents
  config : Option GenConfig

/-- A failure crossing an operation boundary: a rejected transport call, or a
`TypeError` thrown by an unguarded property access. -/
inductive Failure where
  | transport (msg : List Char) : Failure
  | typeError (msg : List Char) : Failure

/-- The single outbound call: the environment `env` maps the index of the
call to the remote outcome; the request is appended to the trace. -/
def callGenerate (env : Nat → Except Failure GenResponse) (req : GenRequest)
    (trace : List GenRequest) : Except Failure GenResponse × List GenRequest :=
  (env trace.length, trace ++ [req])

/-- The fixed instruction of `generateUserProfile`. -/
def userProfilePrompt : List Char :=
  ("Generate a realistic but fake user profile for a Gemini power user. Include name, email, a short bio, and preferences for theme and notifications. Provide an avatarUrl using picsum.photos. Respond in JSON format.").data

/-- The declared shape of `generateUserProfile`. -/
def userProfileSchema : Schema :=
  Schema.object
    [ (("name").data, Schema.string none none),
      (("email").data, Schema.string none none),
      (("bio").data, Schema.string none (some (("A short, interesting bio.").data))),
      (("avatarUrl").data, Schema.string none (some (("A URL from picsum.photos.").data))),
      (("preferences").data,
        Schema.object
          [ (("theme").data, Schema.string (some [("dark").data, ("light").data]) none),
            (("notifications").data, Schema.boolean) ]
          []) ]
    [("name").data, ("email").data, ("bio").data, ("avatarUrl").data, ("preferences").data]

/-- The request issued by `generateUserProfile`. -/
def userProfileRequest : GenRequest :=
  { model := ("gemini-2.5-flash").data,
    contents := Contents.text userProfilePrompt,
    config := some
      { responseMimeType := some (("application/json").data),
        responseSchema := some userProfileSchema,
        responseModalities := none } }

/-- The operation `generateUserProfile`: one request; a rejected call
propagates; otherwise `safeJsonParse(response.text)`. Returns the result
together with the trace of issued requests. -/
def generateUserProfileRun (env : Nat → Except Failure GenResponse) :
    Except Failure (Option Json) × List GenRequest :=
  let rt := callGenerate env userProfileRequest []
  match rt.1 with
  | Except.error e => (Except.error e, rt.2)
  | Except.ok resp => (Except.ok (safeJsonParseOpt resp.text), rt.2)

/-- Text before the spliced `chatTitle` in the `generateChatHistory` prompt. -/
def histPre : List Char :=
  ("Generate a realistic chat history for a conversation titled \"").data

/-- Text after the spliced `chatTitle` in the `generateChatHistory` prompt. -/
def histPost : List Char :=
  ("\". Create about 6-10 messages, alternating between \x27user\x27 and \x27gemini\x27 as the sender. Each message should have an id (uuid), sender, content, and a timestamp (ISO string). Respond in JSON format.").data

/-- The template-literal interpolation of `generateChatHistory`: the caller's
`chatTitle` spliced verbatim between the fixed pieces. -/
def generateChatHistoryPrompt (chatTitle : List Char) : List Char :=
  histPre ++ chatTitle ++ histPost

/-- The declared shape of `generateChatHistory`. -/
def chatHistorySchema : Schema :=
  Schema.array
    (Schema.object
      [ (("id").data, Schema.string none none),
        (("sender").data, Schema.string (some [("user").data, ("gemini").data]) none),
        (("content").data, Schema.string none none),
        (("timestamp").data, Schema.string none none) ]
      [("id").data, ("sender").data, ("content").data, ("timestamp").data])

/-- The request issued by `generateChatHistory(chatTitle)`. -/
def generateChatHistoryRequest (chatTitle : List Char) : GenRequest :=
  { model := ("gemini-2.5-flash").data,
    contents := Contents.text (generateChatHistoryPrompt chatTitle),
    config := some
      { responseMimeType := some (("application/json").data),
        responseSchema := some chatHistorySchema,
        responseModalities := none } }

/-- The operation `generateChatHistory`. -/
def generateChatHistoryRun (env : Nat → Except Failure GenResponse) (chatTitle : List Char) :
    Except Failure (Option Json) × List GenRequest :=
  let rt := callGenerate env (generateChatHistoryRequest chatTitle) []
  match rt.1 with
  | Except.error e => (Except.error e, rt.2)
  | Except.ok resp => (Except.ok (safeJsonParseOpt resp.text), rt.2)

/-- The request issued by `editImage(imageBase64, mimeType, prompt)`. -/
def editImageRequest (imageBase64 mimeType prompt : List Char) : GenRequest :=
  { model := ("gemini-2.5-flash-image").data,
    contents := Contents.parts
      [ { text := none, inlineData := some { data := imageBase64, mimeType := mimeType } },
        { text := some prompt, inlineData := none } ],
    config := some
      { responseMimeType := none,
        responseSchema := none,
        responseModalities := some [Modality.IMAGE] } }

/-- The operation `editImage`: one request; a rejected call propagates; on a
response, the unguarded `response.candidates[0].content.parts` access and the
extraction loop run, and a thrown `TypeError` propagates as well. -/
def editImageRun (env : Nat → Except Failure GenResponse)
    (imageBase64 mimeType prompt : List Char) :
    Except Failure (Option (List Char)) × List GenRequest :=
  let rt := callGenerate env (editImageRequest imageBase64 mimeType prompt) []
  match rt.1 with
  | Except.error e => (Except.error e, rt.2)
  | Except.ok resp =>
    match extractFirstImage resp with
    | Except.error m => (Except.error (Failure.typeError m), rt.2)
    | Except.ok v => (Except.ok v, rt.2)

/-- Text before the spliced `takeoutData` in the `processTakeoutData`
template literal (whitespace exactly as in the source). -/
def takeoutPre : List Char :=
  ("\n        You are an expert data processor. Your task is to analyze the provided raw Google Takeout data (which could be in HTML or JSON format) and consolidate it into a single, clean, structured JSON object.\n\n        Follow these rules strictly:\n        1.  Identify all the chat interactions with Gemini.\n        2.  For each interaction, extract: a unique ID (generate a UUID), the user\x27s prompt, Gemini\x27s response, and the timestamp.\n        3.  Structure the final output as a JSON array of these interaction objects.\n        4.  The output must be ONLY the JSON object, without any surrounding text or markdown.\n\n        Raw Takeout data:\n        \"\"\"\n        ").data

/-- Text after the spliced `takeoutData` in the `processTakeoutData`
template literal. -/
def takeoutPost : List Char := ("\n        \"\"\"\n    ").data

/-- The template-literal interpolation of `processTakeoutData`. -/
def processTakeoutPrompt (takeoutData : List Char) : List Char :=
  takeoutPre ++ takeoutData ++ takeoutPost

/-- The request issued by `processTakeoutData(takeoutData)`: JSON mime type
requested, but no `responseSchema` declared. -/
def processTakeoutRequest (takeoutData : List Char) : GenRequest :=
  { model := ("gemini-2.5-pro").data,
    contents := Contents.text (processTakeoutPrompt takeoutData),
    config := some
      { responseMimeType := some (("application/json").data),
        responseSchema := none,
        responseModalities := none } }

/-- The operation `processTakeoutData`: one request; a rejected call
propagates; otherwise `response.text` is returned raw (no decoder). -/
def processTakeoutDataRun (env : Nat → Except Failure GenResponse) (takeoutData : List Char) :
    Except Failure (Option (List Char)) × List GenRequest :=
  let rt := callGenerate env (processTakeoutRequest takeoutData) []
  match rt.1 with
  | Except.error e => (Except.error e, rt.2)
  | Except.ok resp => (Except.ok resp.text, rt.2)

/-- The operation `sendChatFulfillment`: the externally owned session is the
`sendMessage` function; the module returns `response.text` unchanged. -/
def sendChatFulfillment (sendMessage : List Char → GenResponse) (message : List Char) :
    Option (List Char) :=
  (sendMessage message).text

/-! ## Helper lemmas about the parser and the marker stripping -/

/-- Dropping the length of a leading append component recovers the rest. -/
theorem drop_len_append (a b : List Char) : (a ++ b).drop a.length = b := by
  induction a with
  | nil => rfl
  | cons x xs ih => simp

/-- Taking the length of a leading append component recovers it. -/
theorem take_len_append (a b : List Char) : (a ++ b).take a.length = a := by
  induction a with
  | nil => rfl
  | cons x xs ih => simp

/-- A list is a Boolean prefix of itself followed by anything. -/
theorem isPrefixOf_append_self (p r : List Char) : p.isPrefixOf (p ++ r) = true := by
  induction p with
  | nil => simp [List.isPrefixOf]
  | cons x xs ih => simp [List.isPrefixOf, ih]

/-- A list is a Boolean suffix of anything followed by itself. -/
theorem isSuffixOf_append_self (p r : List Char) : p.isSuffixOf (r ++ p) = true := by
  simp [List.isSuffixOf, List.reverse_append, isPrefixOf_append_self]

/-- A nonempty Boolean prefix forces the same head. -/
theorem isPrefixOf_cons_ex {a : Char} {as t : List Char}
    (h : (a :: as).isPrefixOf t = true) : ∃ t', t = a :: t' := by
  cases t with
  | nil => simp [List.isPrefixOf] at h
  | cons b bs =>
    simp only [List.isPrefixOf, Bool.and_eq_true, beq_iff_eq] at h
    exact ⟨bs, by rw [h.1]⟩

/-- The input splits as the skipped whitespace followed by `skipWs`'s result. -/
theorem skipWs_decomp (cs : List Char) : ∃ w, cs = w ++ skipWs cs := by
  induction cs with
  | nil => exact ⟨[], rfl⟩
  | cons c cs ih =>
    by_cases h : isWs c = true
    · obtain ⟨w, hw⟩ := ih
      exact ⟨c :: w, by simp [skipWs, h]; exact hw⟩
    · exact ⟨[], by simp [skipWs, h]⟩

/-- If `skipWs` consumes everything, every character was whitespace. -/
theorem skipWs_nil_ws {cs : List Char} (h : skipWs cs = []) :
    ∀ x ∈ cs, isWs x = true := by
  induction cs with
  | nil => simp
  | cons c cs ih =>
    intro x hx
    cases hisw : isWs c with
    | false => rw [skipWs, hisw] at h; simp at h
    | true =>
      rw [skipWs, hisw] at h
      simp only [if_true] at h
      rcases List.mem_cons.mp hx with rfl | hx'
      · exact hisw
      · exact ih h x hx'

/-- `PEnd` is stable under extending the input on the left. -/
theorem PEnd_prepend (a : List Char) {cs rest : List Char} (h : PEnd cs rest) :
    PEnd (a ++ cs) rest := by
  obtain ⟨p, c, hcs, hc⟩ := h
  exact ⟨a ++ p, c, by rw [hcs]; simp, hc⟩

/-- A nonempty backtick-free chunk before `rest` gives `PEnd`. -/
theorem all_ne_PEnd (L rest : List Char) (hne : L ≠ [])
    (hall : ∀ x ∈ L, x ≠ backtick) : PEnd (L ++ rest) rest := by
  rcases List.eq_nil_or_concat L with rfl | ⟨P, c, rfl⟩
  · exact absurd rfl hne
  · exact ⟨P, c, by simp, hall c (by simp)⟩

/-- A decimal digit is not a backtick. -/
theorem digit_ne_backtick {x : Char} (hx : x.isDigit = true) : x ≠ backtick := by
  intro heq
  subst heq
  exact absurd hx (by decide)

/-- `spanDigits` splits its input and returns only digits. -/
theorem spanDigits_decomp (cs : List Char) :
    cs = (spanDigits cs).1 ++ (spanDigits cs).2 ∧
    ∀ x ∈ (spanDigits cs).1, x.isDigit = true := by
  induction cs with
  | nil => simp [spanDigits]
  | cons c cs ih =>
    cases hd : c.isDigit with
    | true =>
      constructor
      · simp only [spanDigits, hd, if_true, List.cons_append, List.cons.injEq, true_and]
        exact ih.1
      · intro x hx
        simp only [spanDigits, hd, if_true, List.mem_cons] at hx
        rcases hx with rfl | hx'
        · exact hd
        · exact ih.2 x hx'
    | false => simp [spanDigits, hd]

/-- A successful escape decode consumed a prefix of the input. -/
theorem escDecode_decomp {cs : List Char} {ch : Char} {cs2 : List Char}
    (h : escDecode cs = some (ch, cs2)) : ∃ mid, cs = mid ++ cs2 := by
  cases cs with
  | nil => simp [escDecode] at h
  | cons e cs' =>
    simp only [escDecode] at h
    split_ifs at h with h1 h2 h3 h4 h5 h6 h7 h8 h9
    · exact ⟨[e], by simp at h; rw [h.2]; rfl⟩
    · exact ⟨[e], by simp at h; rw [h.2]; rfl⟩
    · exact ⟨[e], by simp at h; rw [h.2]; rfl⟩
    · exact ⟨[e], by simp at h; rw [h.2]; rfl⟩
    · exact ⟨[e], by simp at h; rw [h.2]; rfl⟩
    · exact ⟨[e], by simp at h; rw [h.2]; rfl⟩
    · exact ⟨[e], by simp at h; rw [h.2]; rfl⟩
    · exact ⟨[e], by simp at h; rw [h.2]; rfl⟩
    · split at h
      · rename_i x1 x2 x3 x4 cs3
        split at h
        · simp only [Option.some.injEq, Prod.mk.injEq] at h
          exact ⟨[e, x1, x2, x3, x4], by rw [← h.2]; rfl⟩
        · simp at h
      · simp at h

/-- A successful string-body parse consumed everything up to a closing quote. -/
theorem parseStringBody_ends :
    ∀ fuel cs out rest, parseStringBody fuel cs = some (out, rest) →
    ∃ pre, cs = pre ++ '"' :: rest := by
  intro fuel
  induction fuel with
  | zero => intro cs out rest h; simp [parseStringBody] at h
  | succ n ih =>
    intro cs out rest h
    cases cs with
    | nil => simp [parseStringBody] at h
    | cons c cs' =>
      simp only [parseStringBody] at h
      split_ifs at h with hq hbs hctl
      · simp only [Option.some.injEq, Prod.mk.injEq] at h
        exact ⟨[], by rw [hq, h.2]; rfl⟩
      · split at h
        · rename_i ch cs2 hesc
          split at h
          · rename_i out' rest' hrec
            simp only [Option.some.injEq, Prod.mk.injEq] at h
            obtain ⟨mid, hmid⟩ := escDecode_decomp hesc
            obtain ⟨pre', hpre'⟩ := ih cs2 out' rest' hrec
            refine ⟨c :: mid ++ pre', ?_⟩
            rw [← h.2, hmid, hpre']
            simp
          · simp at h
        · simp at h
      · split at h
        · rename_i out' rest' hrec
          simp only [Option.some.injEq, Prod.mk.injEq] at h
          obtain ⟨pre', hpre'⟩ := ih cs' out' rest' hrec
          exact ⟨c :: pre', by rw [← h.2, hpre']; simp⟩
        · simp at h

/-- A successful integer-part parse splits the input into a nonempty,
backtick-free lexeme and the rest. -/
theorem parseIntPart_decomp {cs ip r : List Char}
    (h : parseIntPart cs = some (ip, r)) :
    cs = ip ++ r ∧ ip ≠ [] ∧ ∀ x ∈ ip, x ≠ backtick := by
  cases cs with
  | nil => simp [parseIntPart] at h
  | cons c cs' =>
    simp only [parseIntPart] at h
    split_ifs at h with h0 hd
    · simp only [Option.some.injEq, Prod.mk.injEq] at h
      refine ⟨by rw [← h.1, ← h.2]; rfl, by rw [← h.1]; simp, ?_⟩
      intro x hx
      rw [← h.1] at hx
      simp at hx
      rw [hx, h0]
      decide
    · simp only [Option.some.injEq, Prod.mk.injEq] at h
      obtain ⟨hsp1, hsp2⟩ := spanDigits_decomp cs'
      refine ⟨?_, by rw [← h.1]; simp, ?_⟩
      · rw [← h.1, ← h.2]
        conv_lhs => rw [hsp1]
        simp
      · intro x hx
        rw [← h.1] at hx
        simp only [List.mem_cons] at hx
        rcases hx with rfl | hx'
        · exact digit_ne_backtick hd
        · exact digit_ne_backtick (hsp2 x hx')

/-- A successful fraction-part parse splits the input into a backtick-free
lexeme and the rest. -/
theorem parseFracPart_decomp {cs fp r : List Char}
    (h : parseFracPart cs = some (fp, r)) :
    cs = fp ++ r ∧ ∀ x ∈ fp, x ≠ backtick := by
  cases cs with
  | nil =>
    simp only [parseFracPart, Option.some.injEq, Prod.mk.injEq] at h
    simp [← h.1, ← h.2]
  | cons c cs' =>
    simp only [parseFracPart] at h
    split_ifs at h with hdot
    · split at h
      · simp at h
      · rename_i d ds rr hsd
        simp only [Option.some.injEq, Prod.mk.injEq] at h
        obtain ⟨hsp1, hsp2⟩ := spanDigits_decomp cs'
        rw [hsd] at hsp1 hsp2
        constructor
        · rw [← h.1, ← h.2]
          conv_lhs => rw [hsp1]
          simp
        · intro x hx
          rw [← h.1] at hx
          simp only [List.mem_cons] at hx
          rcases hx with rfl | hx'
          · rw [hdot]; decide
          · rcases hx' with rfl | hx''
            · exact digit_ne_backtick (hsp2 x (by simp))
            · exact digit_ne_backtick (hsp2 x (by simp [hx'']))
    · simp only [Option.some.injEq, Prod.mk.injEq] at h
      constructor
      · rw [← h.1, ← h.2]; rfl
      · intro x hx; rw [← h.1] at hx; simp at hx

/-- A successful exponent-part parse splits the input into a backtick-free
lexeme and the rest. -/
theorem parseExpPart_decomp {cs ep r : List Char}
    (h : parseExpPart cs = some (ep, r)) :
    cs = ep ++ r ∧ ∀ x ∈ ep, x ≠ backtick := by
  cases cs with
  | nil =>
    simp only [parseExpPart, Option.some.injEq, Prod.mk.injEq] at h
    simp [← h.1, ← h.2]
  | cons c cs' =>
    simp only [parseExpPart] at h
    split_ifs at h with he
    · split at h
      · rename_i s r'
        split_ifs at h with hsgn
        · split at h
          · simp at h
          · rename_i d ds rr hsd
            simp only [Option.some.injEq, Prod.mk.injEq] at h
            obtain ⟨hsp1, hsp2⟩ := spanDigits_decomp r'
            rw [hsd] at hsp1 hsp2
            constructor
            · rw [← h.1, ← h.2]
              conv_lhs => rw [hsp1]
              simp
            · intro x hx
              rw [← h.1] at hx
              simp only [List.mem_cons] at hx
              rcases hx with rfl | hx'
              · rcases he with rfl | rfl <;> decide
              · rcases hx' with rfl | hx''
                · rcases hsgn with rfl | rfl <;> decide
                · rcases hx'' with rfl | hx3
                  · exact digit_ne_backtick (hsp2 x (by simp))
                  · exact digit_ne_backtick (hsp2 x (by simp [hx3]))
        · split at h
          · simp at h
          · rename_i d ds rr hsd
            simp only [Option.some.injEq, Prod.mk.injEq] at h
            obtain ⟨hsp1, hsp2⟩ := spanDigits_decomp (s :: r')
            rw [hsd] at hsp1 hsp2
            constructor
            · rw [← h.1, ← h.2]
              conv_lhs => rw [hsp1]
              simp
            · intro x hx
              rw [← h.1] at hx
              simp only [List.mem_cons] at hx
              rcases hx with rfl | hx'
              · rcases he with rfl | rfl <;> decide
              · rcases hx' with rfl | hx''
                · exact digit_ne_backtick (hsp2 x (by simp))
                · exact digit_ne_backtick (hsp2 x (by simp [hx'']))
      · simp at h
    · simp only [Option.some.injEq, Prod.mk.injEq] at h
      constructor
      · rw [← h.1, ← h.2]; rfl
      · intro x hx; rw [← h.1] at hx; simp at hx

/-- A successful number-body parse splits the input into a nonempty,
backtick-free lexeme and the rest. -/
theorem parseNumBody_decomp {cs lex r : List Char}
    (h : parseNumBody cs = some (lex, r)) :
    cs = lex ++ r ∧ lex ≠ [] ∧ ∀ x ∈ lex, x ≠ backtick := by
  simp only [parseNumBody] at h
  split at h
  · simp at h
  · rename_i ip r1 hip
    split at h
    · simp at h
    · rename_i fp r2 hfp
      split at h
      · simp at h
      · rename_i ep r3 hep
        simp only [Option.some.injEq, Prod.mk.injEq] at h
        obtain ⟨hip1, hip2, hip3⟩ := parseIntPart_decomp hip
        obtain ⟨hfp1, hfp2⟩ := parseFracPart_decomp hfp
        obtain ⟨hep1, hep2⟩ := parseExpPart_decomp hep
        refine ⟨?_, ?_, ?_⟩
        · rw [← h.1, ← h.2, hip1, hfp1, hep1]
          simp
        · rw [← h.1]
          simp [hip2]
        · intro x hx
          rw [← h.1] at hx
          simp only [List.mem_append] at hx
          rcases hx with (hx' | hx') | hx'
          · exact hip3 x hx'
          · exact hfp2 x hx'
          · exact hep2 x hx'

/-- A successful number parse satisfies `PEnd`. -/
theorem parseNumber_PEnd {cs lex rest : List Char}
    (h : parseNumber cs = some (lex, rest)) : PEnd cs rest := by
  cases cs with
  | nil => simp [parseNumber] at h
  | cons c r =>
    simp only [parseNumber] at h
    split_ifs at h with hneg
    · split at h
      · rename_i lex' rest' hb
        simp only [Option.some.injEq, Prod.mk.injEq] at h
        obtain ⟨hb1, hb2, hb3⟩ := parseNumBody_decomp hb
        have hcr : c :: r = (c :: lex') ++ rest' := by rw [hb1]; rfl
        rw [hcr, ← h.2]
        apply all_ne_PEnd
        · simp
        · intro x hx
          simp only [List.mem_cons] at hx
          rcases hx with rfl | hx'
          · rw [hneg]; decide
          · exact hb3 x hx'
      · simp at h
    · obtain ⟨hb1, hb2, hb3⟩ := parseNumBody_decomp h
      rw [hb1]
      exact all_ne_PEnd _ _ hb2 hb3

/-- Main structural lemma: whatever a successful parse consumed ends in a
closing token (`"`/`]`/`\x7d`), a digit or a literal letter — never in a
backtick, and in items/members mode precisely in `]`/`\x7d`. -/
theorem parseP_ends : ∀ fuel pm cs res rest,
    parseP fuel pm cs = some (res, rest) → ModeEnd pm cs rest := by
  intro fuel
  induction fuel with
  | zero => intro pm cs res rest h; simp [parseP] at h
  | succ n ih =>
    intro pm cs res rest h
    cases pm with
    | value =>
      simp only [parseP] at h
      obtain ⟨w, hw⟩ := skipWs_decomp cs
      split at h
      · simp at h
      · rename_i c cs1 hsk
        rw [hsk] at hw
        split_ifs at h with h1 h2 h3 h4 h5 h6 h7
        · obtain ⟨w2, hw2⟩ := skipWs_decomp cs1
          split at h
          · simp at h
          · rename_i d cs2 hsk2
            rw [hsk2] at hw2
            split_ifs at h with hd
            · simp only [Option.some.injEq, Prod.mk.injEq] at h
              refine ⟨w ++ c :: w2, d, ?_, ?_⟩
              · rw [hw, hw2, ← h.2]; simp
              · rw [hd]; decide
            · split at h
              · rename_i ms rest' hpm
                simp only [Option.some.injEq, Prod.mk.injEq] at h
                obtain ⟨pre, hpre⟩ := ih PM.members cs1 _ _ hpm
                refine ⟨w ++ c :: pre, '}', ?_, by decide⟩
                rw [hw, hpre, ← h.2]
                simp
              · simp at h
        · obtain ⟨w2, hw2⟩ := skipWs_decomp cs1
          split at h
          · simp at h
          · rename_i d cs2 hsk2
            rw [hsk2] at hw2
            split_ifs at h with hd
            · simp only [Option.some.injEq, Prod.mk.injEq] at h
              refine ⟨w ++ c :: w2, d, ?_, ?_⟩
              · rw [hw, hw2, ← h.2]; simp
              · rw [hd]; decide
            · split at h
              · rename_i js rest' hpi
                simp only [Option.some.injEq, Prod.mk.injEq] at h
                obtain ⟨pre, hpre⟩ := ih PM.items cs1 _ _ hpi
                refine ⟨w ++ c :: pre, ']', ?_, by decide⟩
                rw [hw, hpre, ← h.2]
                simp
              · simp at h
        · split at h
          · rename_i out rest' hsb
            simp only [Option.some.injEq, Prod.mk.injEq] at h
            obtain ⟨pre, hpre⟩ := parseStringBody_ends _ _ _ _ hsb
            refine ⟨w ++ c :: pre, '"', ?_, by decide⟩
            rw [hw, hpre, ← h.2]
            simp
          · simp at h
        · split at h
          · rename_i c1 c2 c3 rest2
            split_ifs at h with hlit
            obtain ⟨hl1, hl2, hl3⟩ := hlit
            simp only [Option.some.injEq, Prod.mk.injEq] at h
            refine ⟨w ++ [c, c1, c2], c3, ?_, by rw [hl3]; decide⟩
            rw [hw, ← h.2]
            simp
          · simp at h
        · split at h
          · rename_i c1 c2 c3 c4 rest2
            split_ifs at h with hlit
            obtain ⟨hl1, hl2, hl3, hl4⟩ := hlit
            simp only [Option.some.injEq, Prod.mk.injEq] at h
            refine ⟨w ++ [c, c1, c2, c3], c4, ?_, by rw [hl4]; decide⟩
            rw [hw, ← h.2]
            simp
          · simp at h
        · split at h
          · rename_i c1 c2 c3 rest2
            split_ifs at h with hlit
            obtain ⟨hl1, hl2, hl3⟩ := hlit
            simp only [Option.some.injEq, Prod.mk.injEq] at h
            refine ⟨w ++ [c, c1, c2], c3, ?_, by rw [hl3]; decide⟩
            rw [hw, ← h.2]
            simp
          · simp at h
        · split at h
          · rename_i lex rest' hpn
            simp only [Option.some.injEq, Prod.mk.injEq] at h
            rw [hw, ← h.2]
            exact PEnd_prepend w (parseNumber_PEnd hpn)
          · simp at h
    | items =>
      simp only [parseP] at h
      split at h
      · rename_i v r1 hpv
        obtain ⟨p1, c1, hcs, hc1⟩ := ih PM.value cs _ _ hpv
        obtain ⟨w, hwr⟩ := skipWs_decomp r1
        split at h
        · simp at h
        · rename_i d r2 hsk
          rw [hsk] at hwr
          split_ifs at h with hcomma hrbrack
          · split at h
            · rename_i js rest' hrec
              simp only [Option.some.injEq, Prod.mk.injEq] at h
              obtain ⟨p2, hp2⟩ := ih PM.items r2 _ _ hrec
              refine ⟨p1 ++ c1 :: w ++ d :: p2, ?_⟩
              rw [hcs, hwr, hp2, ← h.2]
              simp
            · simp at h
          · simp only [Option.some.injEq, Prod.mk.injEq] at h
            refine ⟨p1 ++ c1 :: w, ?_⟩
            rw [hcs, hwr, hrbrack, ← h.2]
            simp
      · simp at h
    | members =>
      simp only [parseP] at h
      obtain ⟨w, hw⟩ := skipWs_decomp cs
      split at h
      · simp at h
      · rename_i d cs1 hsk
        rw [hsk] at hw
        split_ifs at h with hdq
        split at h
        · rename_i key r1 hsb
          obtain ⟨pk, hpk⟩ := parseStringBody_ends _ _ _ _ hsb
          obtain ⟨w2, hw2⟩ := skipWs_decomp r1
          split at h
          · simp at h
          · rename_i e r2 hsk2
            rw [hsk2] at hw2
            split_ifs at h with hcolon
            split at h
            · rename_i v r3 hpv
              obtain ⟨pv, cv, hpv2, hcv⟩ := ih PM.value r2 _ _ hpv
              obtain ⟨w3, hw3⟩ := skipWs_decomp r3
              split at h
              · simp at h
              · rename_i f r4 hsk3
                rw [hsk3] at hw3
                split_ifs at h with hfc hfb
                · split at h
                  · rename_i ms rest' hrec
                    simp only [Option.some.injEq, Prod.mk.injEq] at h
                    obtain ⟨pm2, hpm2⟩ := ih PM.members r4 _ _ hrec
                    refine ⟨w ++ d :: pk ++ '"' :: w2 ++ e :: pv ++ cv :: w3 ++ f :: pm2, ?_⟩
                    rw [hw, hpk, hw2, hpv2, hw3, hpm2, ← h.2]
                    simp
                  · simp at h
                · simp only [Option.some.injEq, Prod.mk.injEq] at h
                  refine ⟨w ++ d :: pk ++ '"' :: w2 ++ e :: pv ++ cv :: w3, ?_⟩
                  rw [hw, hpk, hw2, hpv2, hw3, hfb, ← h.2]
                  simp
            · simp at h
        · simp at h

/-- A successful value parse starts (after whitespace) with a value starter,
which is never a backtick. -/
theorem parseP_value_head : ∀ fuel cs res rest,
    parseP fuel PM.value cs = some (res, rest) →
    ∀ c cs1, skipWs cs = c :: cs1 → c ≠ backtick := by
  intro fuel cs res rest h c cs1 hsk
  cases fuel with
  | zero => simp [parseP] at h
  | succ n =>
    simp only [parseP] at h
    rw [hsk] at h
    simp only [] at h
    split_ifs at h with h1 h2 h3 h4 h5 h6 h7
    · rw [h1]; decide
    · rw [h2]; decide
    · rw [h3]; decide
    · rw [h4]; decide
    · rw [h5]; decide
    · rw [h6]; decide
    · rcases h7 with rfl | hdig
      · decide
      · exact digit_ne_backtick hdig

/-- A successful `JSON.parse` leaves behind only whitespace and consumed a
chunk ending in a non-backtick character. -/
theorem jsonParse_shape {s : List Char} {v : Json}
    (h : jsonParseExc s = Except.ok v) :
    ∃ rest, PEnd s rest ∧ skipWs rest = [] := by
  unfold jsonParseExc at h
  split at h
  · rename_i v' rest hp
    split_ifs at h with hws
    exact ⟨rest, parseP_ends _ _ _ _ _ hp, hws⟩
  · simp at h

/-- A text accepted by `JSON.parse` does not start with the leading marker
(its first character would be a backtick, which starts no JSON value). -/
theorem valid_stripLead {s : List Char} {v : Json}
    (h : jsonParseExc s = Except.ok v) : stripLead s = s := by
  unfold stripLead
  cases hpf : markerLead.isPrefixOf s with
  | false => simp [hpf]
  | true =>
    exfalso
    have hml : markerLead = backtick :: ("``json\n").data := by decide
    rw [hml] at hpf
    obtain ⟨s', hs'⟩ := isPrefixOf_cons_ex hpf
    unfold jsonParseExc at h
    split at h
    · rename_i v' rest hp
      have hhead : skipWs s = backtick :: s' := by
        rw [hs']
        simp [skipWs, show isWs backtick = false from by decide]
      exact parseP_value_head _ _ _ _ hp backtick s' hhead rfl
    · simp at h

/-- A text accepted by `JSON.parse` does not end with the trailing marker
(its last character would be a backtick, which ends no JSON value and is not
whitespace). -/
theorem valid_stripTrail {s : List Char} {v : Json}
    (h : jsonParseExc s = Except.ok v) : stripTrail s = s := by
  unfold stripTrail
  cases hsf : markerTrail.isSuffixOf s with
  | false => simp [hsf]
  | true =>
    exfalso
    obtain ⟨rest, ⟨pre, c, hs, hc⟩, hws⟩ := jsonParse_shape h
    have hrev : markerTrail.reverse = backtick :: ("``\n").data := by decide
    rw [List.isSuffixOf, hrev] at hsf
    obtain ⟨t', ht'⟩ := isPrefixOf_cons_ex hsf
    have hsrev : s.reverse = rest.reverse ++ c :: pre.reverse := by
      rw [hs]
      simp
    cases hrr : rest.reverse with
    | nil =>
      rw [hrr] at hsrev
      simp at hsrev
      rw [hsrev] at ht'
      have : c = backtick := by
        have := ht'
        simp at this
        exact this.1
      exact hc this
    | cons y t =>
      have hy : y ∈ rest := by
        have : y ∈ rest.reverse := by rw [hrr]; simp
        exact List.mem_reverse.mp this
      have hyws : isWs y = true := skipWs_nil_ws hws y hy
      have hyne : y ≠ backtick := by
        intro heq
        rw [heq] at hyws
        exact absurd hyws (by decide)
      rw [hrr] at hsrev
      rw [hsrev] at ht'
      simp at ht'
      exact hyne ht'.1

/-- On a text accepted by `JSON.parse`, the decoder's cleaning is identity. -/
theorem valid_clean {s : List Char} {v : Json}
    (h : jsonParseExc s = Except.ok v) : cleanedString s = s := by
  unfold cleanedString
  rw [valid_stripLead h, valid_stripTrail h]

/-- Stripping the leading marker from a marker-wrapped text. -/
theorem stripLead_wrap (t : List Char) : stripLead (markerLead ++ t) = t := by
  unfold stripLead
  rw [isPrefixOf_append_self]
  simp [drop_len_append]

/-- Stripping the trailing marker from a marker-wrapped text. -/
theorem stripTrail_wrap (t : List Char) : stripTrail (t ++ markerTrail) = t := by
  unfold stripTrail
  rw [isSuffixOf_append_self]
  simp [List.length_append, take_len_append]

/-- Cleaning a fully marker-wrapped text recovers the inner text. -/
theorem clean_wrap (s : List Char) :
    cleanedString (markerLead ++ s ++ markerTrail) = s := by
  unfold cleanedString
  rw [List.append_assoc, stripLead_wrap, stripTrail_wrap]

/-! ## Claim theorems -/

/-- C1: For every input string that, after marker-stripping, is not valid
JSON (including the empty string and text with leading prose), the decoder
`safeJsonParse` returns `null` and never raises — the parse failure is caught
and mapped to `none`; totality of `safeJsonParse` (codomain `Option Json`)
models that no exception escapes. -/
theorem c1_decode_failure_null (s e : List Char)
    (h : jsonParseExc (cleanedString s) = Except.error e) :
    safeJsonParse s = none := by
  unfold safeJsonParse
  rw [h]

/-- Witness for C1 at the spec's two concrete inputs: the prose example and
the empty string. -/
theorem c1_decode_failure_null_witness :
    safeJsonParse (("Sure! Here\x27s your JSON: \x7b\"a\":1\x7d").data) = none ∧
    safeJsonParse [] = none :=
  ⟨c1_decode_failure_null _ errUnexpectedToken rfl,
   c1_decode_failure_null _ errUnexpectedToken rfl⟩

/-- C2: For every valid JSON text `s`, decoding `s` wrapped in the fenced
markers at the very start and very end yields the same value as decoding the
unwrapped `s`, and marker-stripping is the only normalization performed: on
a text bearing neither marker, cleaning is the identity. -/
theorem c2_marker_wrap (s : List Char) (v : Json)
    (h : jsonParseExc s = Except.ok v) :
    safeJsonParse (markerLead ++ s ++ markerTrail) = some v ∧
    safeJsonParse s = some v ∧
    (∀ t : List Char, markerLead.isPrefixOf t = false →
      markerTrail.isSuffixOf t = false → cleanedString t = t) := by
  refine ⟨?_, ?_, ?_⟩
  · unfold safeJsonParse
    rw [clean_wrap, h]
  · unfold safeJsonParse
    rw [valid_clean h, h]
  · intro t h1 h2
    unfold cleanedString stripLead stripTrail
    simp [h1, h2]

/-- Witness for C2 at the concrete JSON text of the spec scenario. -/
theorem c2_marker_wrap_witness :
    safeJsonParse (markerLead ++ ("\x7b\"a\":1\x7d").data ++ markerTrail) =
      some (Json.obj [(("a").data, Json.num (("1").data))]) ∧
    safeJsonParse (("\x7b\"a\":1\x7d").data) =
      some (Json.obj [(("a").data, Json.num (("1").data))]) :=
  ⟨(c2_marker_wrap (("\x7b\"a\":1\x7d").data)
      (Json.obj [(("a").data, Json.num (("1").data))]) rfl).1,
   (c2_marker_wrap (("\x7b\"a\":1\x7d").data)
      (Json.obj [(("a").data, Json.num (("1").data))]) rfl).2.1⟩

/-- C3 counterexample: the extraction loop in `editImage` returns only the
byte payload, not the mime type — two responses differing only in the mime
type produce identical results, so the result cannot carry the mime type the
claim (and `firstImageSpec`, modelled from the spec) says is returned. -/
theorem c3_mime_counterexample :
    firstImage
      [{ text := none,
         inlineData := some { data := ("IMGBYTES").data, mimeType := ("image/png").data } }] =
    firstImage
      [{ text := none,
         inlineData := some { data := ("IMGBYTES").data, mimeType := ("image/jpeg").data } }] ∧
    firstImageSpec
      [{ text := none,
         inlineData := some { data := ("IMGBYTES").data, mimeType := ("image/png").data } }] ≠
    firstImageSpec
      [{ text := none,
         inlineData := some { data := ("IMGBYTES").data, mimeType := ("image/jpeg").data } }] := by
  constructor
  · rfl
  · decide

/-- C3 as amended: for every ordered segment list containing at least one
inline-binary segment, the loop in `editImage` returns the byte payload (and
only the payload — the mime type is discarded) of the first inline-binary
segment in order, ignoring all text segments that precede it. -/
theorem c3_first_binary_payload (pre post : List Part) (p : Part) (d : InlineData)
    (hpre : ∀ q ∈ pre, q.inlineData = none) (hp : p.inlineData = some d) :
    firstImage (pre ++ p :: post) = some d.data := by
  induction pre with
  | nil => simp [firstImage, hp]
  | cons q qs ih =>
    have hq : q.inlineData = none := hpre q (by simp)
    simp only [List.cons_append, firstImage, hq]
    exact ih (fun r hr => hpre r (by simp [hr]))

/-- Witness for C3's amended claim at the spec scenario: one text part
followed by one binary part. -/
theorem c3_first_binary_payload_witness :
    firstImage
      [{ text := some (("Here is the edited image").data), inlineData := none },
       { text := none,
         inlineData := some { data := ("IMGBYTES").data, mimeType := ("image/png").data } }] =
      some (("IMGBYTES").data) :=
  c3_first_binary_payload
    [{ text := some (("Here is the edited image").data), inlineData := none }] []
    { text := none,
      inlineData := some { data := ("IMGBYTES").data, mimeType := ("image/png").data } }
    { data := ("IMGBYTES").data, mimeType := ("image/png").data }
    (by intro q hq; simp at hq; subst hq; rfl)
    rfl

/-- C4: for every segment list with no inline-binary segment, the extraction
loop returns `null`; it is total (no exception channel), so absence of a
binary part is a non-exceptional outcome. -/
theorem c4_no_binary_null (ps : List Part)
    (h : ∀ p ∈ ps, p.inlineData = none) : firstImage ps = none := by
  induction ps with
  | nil => rfl
  | cons q qs ih =>
    have hq : q.inlineData = none := h q (by simp)
    simp only [firstImage, hq]
    exact ih (fun r hr => h r (by simp [hr]))

/-- Witness for C4: a text-only segment list and the empty list. -/
theorem c4_no_binary_null_witness :
    firstImage [{ text := some (("no image produced").data), inlineData := none }] = none ∧
    firstImage [] = none :=
  ⟨c4_no_binary_null _ (by intro p hp; simp at hp; subst hp; rfl),
   c4_no_binary_null [] (by intro p hp; simp at hp)⟩

/-- C5: a transport-level failure of the remote call is not caught by
`generateUserProfile` — it propagates unchanged; a completed call yields
`Except.ok` of the decoder result; and the three outcomes (transport error,
decode-failure `null`, typed value) are mutually exclusive by constructor. -/
theorem c5_transport_propagates (env : Nat → Except Failure GenResponse) :
    (∀ e, env 0 = Except.error e → (generateUserProfileRun env).1 = Except.error e) ∧
    (∀ resp, env 0 = Except.ok resp →
      (generateUserProfileRun env).1 = Except.ok (safeJsonParseOpt resp.text)) ∧
    (∀ e j, (Except.error e : Except Failure (Option Json)) ≠ Except.ok j) ∧
    (∀ j, (Except.ok (some j) : Except Failure (Option Json)) ≠ Except.ok none) := by
  refine ⟨?_, ?_, ?_, ?_⟩
  · intro e he
    simp [generateUserProfileRun, callGenerate, he]
  · intro resp hr
    simp [generateUserProfileRun, callGenerate, hr]
  · intro e j hcontra
    simp at hcontra
  · intro j hcontra
    simp at hcontra

/-- Witness for C5: a rejected transport propagates; an undecodable body
degrades to `Except.ok none`. -/
theorem c5_transport_propagates_witness :
    (generateUserProfileRun
        (fun _ => Except.error (Failure.transport (("network down").data)))).1 =
      Except.error (Failure.transport (("network down").data)) ∧
    (generateUserProfileRun
        (fun _ => Except.ok { text := some (("not json").data), candidates := none })).1 =
      Except.ok none := by
  constructor
  · exact (c5_transport_propagates _).1 _ rfl
  · have h := (c5_transport_propagates
      (fun _ => Except.ok { text := some (("not json").data), candidates := none })).2.1 _ rfl
    rw [h]
    rfl

/-- C6 counterexample: `processTakeoutData` does not pass the returned text
through the decoder and declares no response schema — on a non-JSON reply it
returns the raw text, not the `null` the claim requires, and its request
config carries `responseSchema := none`. -/
theorem c6_raw_text_counterexample :
    (processTakeoutDataRun
        (fun _ => Except.ok { text := some (("oops not json").data), candidates := none })
        (("mylog").data)).1 =
      Except.ok (some (("oops not json").data)) ∧
    safeJsonParseOpt (some (("oops not json").data)) = none ∧
    (Except.ok (some (("oops not json").data)) : Except Failure (Option (List Char))) ≠
      Except.ok none ∧
    (processTakeoutRequest (("mylog").data)).config =
      some { responseMimeType := some (("application/json").data),
             responseSchema := none, responseModalities := none } := by
  refine ⟨rfl, rfl, by simp, rfl⟩

/-- C6 as amended: `processTakeoutData` issues one request with a fixed
instruction (the takeout data spliced in), requests the JSON mime type but
declares no output schema, and returns the raw response text without
decoding — never `null`-on-invalid-JSON. -/
theorem c6_raw_text_passthrough (env : Nat → Except Failure GenResponse) (d : List Char) :
    (processTakeoutDataRun env d).2 = [processTakeoutRequest d] ∧
    (∀ resp, env 0 = Except.ok resp → (processTakeoutDataRun env d).1 = Except.ok resp.text) ∧
    (processTakeoutRequest d).config =
      some { responseMimeType := some (("application/json").data),
             responseSchema := none, responseModalities := none } := by
  refine ⟨?_, ?_, rfl⟩
  · cases he : env 0 <;> simp [processTakeoutDataRun, callGenerate, he]
  · intro resp hr
    simp [processTakeoutDataRun, callGenerate, hr]

/-- Witness for C6's amended claim at a concrete environment. -/
theorem c6_raw_text_passthrough_witness :
    (processTakeoutDataRun
        (fun _ => Except.ok { text := some (("raw output").data), candidates := none })
        (("log").data)).1 =
      Except.ok (some (("raw output").data)) :=
  (c6_raw_text_passthrough _ _).2.1 _ rfl

/-- C7 counterexample: `sendChatFulfillment` returns `response.text`
unchanged, so an empty-string reply is returned as `some ""`, not `null` as
the claim states. -/
theorem c7_empty_reply_counterexample :
    sendChatFulfillment (fun _ => { text := some [], candidates := none }) (("hello").data) =
      some [] ∧
    (some ([] : List Char)) ≠ (none : Option (List Char)) :=
  ⟨rfl, by simp⟩

/-- C7 as amended: the endpoint's textual reply is returned unchanged — an
absent reply gives `null`, but an empty-string reply is returned as the empty
string, not converted to `null`. -/
theorem c7_reply_passthrough (sendMessage : List Char → GenResponse) (message : List Char) :
    sendChatFulfillment sendMessage message = (sendMessage message).text ∧
    (sendChatFulfillment sendMessage message = none ↔ (sendMessage message).text = none) :=
  ⟨rfl, Iff.rfl⟩

/-- C8: every invocation of a generation operation issues exactly one request
to the remote endpoint, on every outcome (transport failure, decode failure,
success), and the request trace is its only effect. -/
theorem c8_single_request (env : Nat → Except Failure GenResponse)
    (img mime prompt chatTitle takeoutData : List Char) :
    (generateUserProfileRun env).2 = [userProfileRequest] ∧
    (editImageRun env img mime prompt).2 = [editImageRequest img mime prompt] ∧
    (generateChatHistoryRun env chatTitle).2 = [generateChatHistoryRequest chatTitle] ∧
    (processTakeoutDataRun env takeoutData).2 = [processTakeoutRequest takeoutData] := by
  refine ⟨?_, ?_, ?_, ?_⟩
  · cases he : env 0 <;> simp [generateUserProfileRun, callGenerate, he]
  · cases he : env 0 with
    | error e => simp [editImageRun, callGenerate, he]
    | ok resp =>
      cases hx : extractFirstImage resp <;>
        simp [editImageRun, callGenerate, he, hx]
  · cases he : env 0 <;> simp [generateChatHistoryRun, callGenerate, he]
  · cases he : env 0 <;> simp [processTakeoutDataRun, callGenerate, he]

/-- C9: the unguarded access `response.candidates[0].content.parts` in
`editImage` succeeds (reaching the loop, whose `null` branch is then
reachable) exactly when the response has a first candidate carrying a content
with a parts list; in particular an empty candidates list makes the access
throw instead of returning `null`. -/
theorem c9_unguarded_extraction (r : GenResponse) :
    ((∃ v, extractFirstImage r = Except.ok v) ↔
      ∃ c rest ct ps, r.candidates = some (c :: rest) ∧
        c.content = some ct ∧ ct.parts = some ps) ∧
    (r.candidates = some [] → ∃ msg, extractFirstImage r = Except.error msg) := by
  constructor
  · constructor
    · rintro ⟨v, hv⟩
      unfold extractFirstImage at hv
      split at hv
      · simp at hv
      · simp at hv
      · rename_i c cands hc
        split at hv
        · simp at hv
        · rename_i ct hct
          split at hv
          · simp at hv
          · rename_i ps hps
            exact ⟨c, cands, ct, ps, hc, hct, hps⟩
    · rintro ⟨c, rest, ct, ps, hc, hct, hps⟩
      exact ⟨firstImage ps, by simp [extractFirstImage, hc, hct, hps]⟩
  · intro hc
    exact ⟨("TypeError: candidates[0] is undefined").data, by simp [extractFirstImage, hc]⟩

/-- Witness for C9 at the response with an empty candidates list. -/
theorem c9_unguarded_extraction_witness :
    ∃ msg, extractFirstImage { text := none, candidates := some [] } = Except.error msg :=
  (c9_unguarded_extraction _).2 rfl

/-- C10: the instruction sent by `generateChatHistory(chatTitle)` and by
`processTakeoutData(takeoutData)` is the fixed template with the caller's
argument spliced in verbatim — the sent prompt contains the argument
character for character, with no escaping or neutralization. -/
theorem c10_prompt_splice_verbatim (chatTitle takeoutData : List Char) :
    (generateChatHistoryRequest chatTitle).contents =
      Contents.text (histPre ++ chatTitle ++ histPost) ∧
    (processTakeoutRequest takeoutData).contents =
      Contents.text (takeoutPre ++ takeoutData ++ takeoutPost) ∧
    chatTitle <:+: histPre ++ chatTitle ++ histPost ∧
    takeoutData <:+: takeoutPre ++ takeoutData ++ takeoutPost := by
  refine ⟨rfl, rfl, ⟨histPre, histPost, rfl⟩, ⟨takeoutPre, takeoutPost, rfl⟩⟩

end GeminiService
